import Mathlib

/-!
Verification of the GP2YDustSensor driver (GP2YDustSensor.cpp / GP2YDustSensor.h).

The C++ class is shallowly embedded as a Lean structure of its mutable fields
together with one Lean function per method.  Conventions of the embedding:

* C++ `float` arithmetic is modelled exactly over `ℚ`; the decimal literals of
  the source (0.9, 1.5, 0.1, 0.6, 1.1, 0.5) are the corresponding rationals.
* Machine integers are `Nat`/`Int` with explicit reductions modulo 2^16 where
  the source converts between `uint16_t` and `int16_t`.
* The ADC readings delivered by `analogRead` inside `getDustDensity` are passed
  in as an explicit list `raws`; hardware pin toggling and the microsecond
  delays have no observable effect on the computed values and are not part of
  the state.
* A C++ method that mutates fields becomes a function returning the new state
  (paired with the return value when the method returns one); a method that
  mutates nothing becomes a pure function of the state.
* The C++ conversion of a nonnegative `float` to `uint16_t` truncates towards
  zero; on the nonnegative values arising here this is `Int.floor` followed by
  `Int.toNat`.
-/

namespace GP2Y

/-- The two supported sensor variants, from the GP2YDustSensorType enum. -/
inductive GP2YDustSensorType where
  | GP2Y1010AU0F
  | GP2Y1014AU0F
deriving DecidableEq

/-- The mutable fields of the GP2YDustSensor class (pins omitted: they only
feed the hardware shims).  The int16_t running-average buffer is a list of
integers, always of length runningAverageCount. -/
structure SensorState where
  vRef : ℚ
  sensitivity : ℚ
  calibrationFactor : ℚ
  zeroDustVoltage : ℚ
  minDustVoltage : ℚ
  minZeroDustVoltage : ℚ
  typZeroDustVoltage : ℚ
  maxZeroDustVoltage : ℚ
  currentBaselineCandidate : ℚ
  hasBaselineCandidate : Bool
  readCount : Nat
  runningAverageCount : Nat
  runningAverageBuffer : List Int
  nextRunningAverageCounter : Nat
deriving DecidableEq

/-- Constant BASELINE_CANDIDATE_MIN_READINGS from GP2YDustSensor.h. -/
def BASELINE_CANDIDATE_MIN_READINGS : Nat := 10

/-- The GP2YDustSensor constructor: per-variant voltage profile, default
sensitivity 0.5, calibration factor 1, zeroDustVoltage = minDustVoltage =
typZeroDustVoltage, running-average buffer allocated and filled with -1. -/
def construct (type : GP2YDustSensorType) (runningAverageCount : Nat)
    (voltageReference : ℚ) : SensorState :=
  let profile : ℚ × ℚ × ℚ :=
    match type with
    | .GP2Y1010AU0F => (0, 0.9, 1.5)
    | .GP2Y1014AU0F => (0.1, 0.6, 1.1)
  { vRef := voltageReference
    sensitivity := 0.5
    calibrationFactor := 1
    zeroDustVoltage := profile.2.1
    minDustVoltage := profile.2.1
    minZeroDustVoltage := profile.1
    typZeroDustVoltage := profile.2.1
    maxZeroDustVoltage := profile.2.2
    currentBaselineCandidate := profile.2.1
    hasBaselineCandidate := false
    readCount := 0
    runningAverageCount := runningAverageCount
    runningAverageBuffer := List.replicate runningAverageCount (-1)
    nextRunningAverageCounter := 0 }

/-- setBaseline: stores the given value into zeroDustVoltage, nothing else. -/
def setBaseline (s : SensorState) (zeroDustVoltage : ℚ) : SensorState :=
  { s with zeroDustVoltage := zeroDustVoltage }

/-- getBaseline: reads zeroDustVoltage. -/
def getBaseline (s : SensorState) : ℚ :=
  s.zeroDustVoltage

/-- setSensitivity: stores the given value into sensitivity. -/
def setSensitivity (s : SensorState) (sensitivity : ℚ) : SensorState :=
  { s with sensitivity := sensitivity }

/-- getSensitivity: reads sensitivity. -/
def getSensitivity (s : SensorState) : ℚ :=
  s.sensitivity

/-- setCalibrationFactor: stores the given slope into calibrationFactor. -/
def setCalibrationFactor (s : SensorState) (slope : ℚ) : SensorState :=
  { s with calibrationFactor := slope }

/-- getBaselineCandidate: if no candidate is ready, return the stored
currentBaselineCandidate, leaving the state untouched; otherwise return the
tracked minimum and reset minDustVoltage (and currentBaselineCandidate) to
maxZeroDustVoltage, readCount to 0 and the candidate flag to false. -/
def getBaselineCandidate (s : SensorState) : ℚ × SensorState :=
  if s.hasBaselineCandidate = false then
    (s.currentBaselineCandidate, s)
  else
    (s.minDustVoltage,
      { s with
          minDustVoltage := s.maxZeroDustVoltage
          currentBaselineCandidate := s.maxZeroDustVoltage
          readCount := 0
          hasBaselineCandidate := false })

/-- Conversion of a value to int16_t through the uint16_t parameter of
updateRunningAverage: reduce modulo 2^16, then reinterpret as a signed
two's-complement 16-bit integer. -/
def int16OfUInt16 (v : Nat) : Int :=
  if v % 65536 < 32768 then ((v % 65536 : Nat) : Int)
  else ((v % 65536 : Nat) : Int) - 65536

/-- updateRunningAverage: write the (int16_t-converted) value at the current
write index and advance the index, wrapping to 0 once it reaches
runningAverageCount. -/
def updateRunningAverage (s : SensorState) (value : Nat) : SensorState :=
  let nxt := s.nextRunningAverageCounter + 1
  { s with
      runningAverageBuffer :=
        s.runningAverageBuffer.set s.nextRunningAverageCounter (int16OfUInt16 value)
      nextRunningAverageCounter := if s.runningAverageCount ≤ nxt then 0 else nxt }

/-- getRunningAverage: with the feature disabled the method returns -1, whose
uint16_t return type makes 65535; otherwise it averages the buffer slots that
differ from the -1 sentinel (the C++ loop runs over runningAverageCount
entries, which equals the buffer length by construction), returning 0 when
none is filled, and rounds with round.  Mathlib round is round-half-up, which
agrees with the C round function on the nonnegative averages the claims are
about; a negative average would hit undefined behaviour in the uint16_t
return conversion anyway, modelled here by the clamping Int.toNat. -/
def getRunningAverage (s : SensorState) : Nat :=
  if s.runningAverageCount = 0 then 65535
  else
    let filled := s.runningAverageBuffer.filter (fun x => x != -1)
    if filled.length = 0 then 0
    else (round ((filled.sum : ℚ) / (filled.length : ℚ))).toNat

/-- The guard of the sampling loop of getDustDensity.  The loop counter i is a
uint8_t, so after k increments its stored value is k mod 256, and the loop test
i < numSamples compares that wrapped value against the uint16_t argument. -/
def loopContinues (numSamples k : Nat) : Bool :=
  decide (k % 256 < numSamples)

/-- The scaled voltage computed by getDustDensity: the integer mean of the raw
ADC samples (uint32_t accumulation, truncating division assigned to the
uint16_t avgRaw) scaled by vRef over the 10-bit ADC range and by the
calibration factor.  The raws list holds the uint16_t analogRead results,
each between 0 and 1023 for the assumed 10-bit converter; with at most 255
samples per terminating call the uint32_t total and the uint16_t mean cannot
wrap, so the plain Nat arithmetic is exact. -/
def scaledVoltageOf (s : SensorState) (raws : List Nat) : ℚ :=
  let avgRaw : Nat := raws.sum / raws.length
  (avgRaw : ℚ) * (s.vRef / 1024) * s.calibrationFactor

/-- C++ conversion of a nonnegative float to uint16_t: truncation towards
zero, i.e. floor on the nonnegative values produced by getDustDensity. -/
def floatToUInt16 (q : ℚ) : Nat :=
  (⌊q⌋).toNat

/-- getDustDensity for a terminating call (numSamples = raws.length between 1
and 255, see loopContinues for the wrap-around of larger counts): average the
raw samples, scale to volts, track the baseline minimum, clamp negative
densities to 0, feed the running average when enabled, and advance the
baseline-candidate observation counter. -/
def getDustDensity (s : SensorState) (raws : List Nat) : Nat × SensorState :=
  let scaledVoltage := scaledVoltageOf s raws
  let s1 :=
    if scaledVoltage < s.minDustVoltage ∧ s.minZeroDustVoltage ≤ scaledVoltage ∧
        scaledVoltage ≤ s.maxZeroDustVoltage then
      { s with minDustVoltage := scaledVoltage }
    else s
  let dustDensity : Nat :=
    if scaledVoltage < s.zeroDustVoltage then 0
    else floatToUInt16 ((scaledVoltage - s.zeroDustVoltage) / s.sensitivity * 100)
  let s2 := if s1.runningAverageCount ≠ 0 then updateRunningAverage s1 dustDensity else s1
  let s3 :=
    if s2.hasBaselineCandidate = false then
      if BASELINE_CANDIDATE_MIN_READINGS < s2.readCount + 1 then
        { s2 with readCount := s2.readCount + 1, hasBaselineCandidate := true }
      else
        { s2 with readCount := s2.readCount + 1 }
    else s2
  (dustDensity, s3)

/-- Folding a list of density values into the running-average buffer. -/
def pushAll (s : SensorState) (vs : List Nat) : SensorState :=
  vs.foldl updateRunningAverage s

/-- A fixed GP2Y1014AU0F sensor used for concrete witnesses: default
running-average capacity 60 and reference voltage 5.0. -/
def s1014 : SensorState :=
  construct .GP2Y1014AU0F 60 5

/-- A sensor state whose baseline candidate is ready: s1014 after the
candidate flag has been raised with a tracked minimum of 0.45 V. -/
def readyState : SensorState :=
  { s1014 with hasBaselineCandidate := true, minDustVoltage := 0.45, readCount := 11 }

/-- The invariant of the baseline tracker: the tracked minimum voltage stays
inside the profile window [minZeroDustVoltage, maxZeroDustVoltage]. -/
def baselineInv (s : SensorState) : Prop :=
  s.minZeroDustVoltage ≤ s.minDustVoltage ∧ s.minDustVoltage ≤ s.maxZeroDustVoltage

/-- Claim C1: for numSamples = 256 the sampling loop of getDustDensity can
never exit: the uint8_t loop counter reads k mod 256 < 256 after every number
of increments, so the guard i < numSamples stays true and the call does not
terminate, contrary to the claimed termination after numSamples samples. -/
theorem C1_loop_never_exits (k : Nat) : loopContinues 256 k = true := by
  simp only [loopContinues, decide_eq_true_eq]
  exact Nat.mod_lt _ (by norm_num)

/-- For sample counts in the intended range 1..255 the loop guard fails for
the first time after exactly numSamples iterations, so a call acquires exactly
numSamples raw samples before terminating. -/
theorem loop_exits_first_at (numSamples : Nat) (h : numSamples ≤ 255) :
    loopContinues numSamples numSamples = false ∧
    ∀ k, k < numSamples → loopContinues numSamples k = true := by
  constructor
  · simp only [loopContinues, decide_eq_false_iff_not, not_lt]
    omega
  · intro k hk
    simp only [loopContinues, decide_eq_true_eq]
    omega

/-- Witness for the loop-exit characterisation at the default sample count. -/
theorem loop_exits_first_at_witness :
    loopContinues 20 20 = false ∧ ∀ k, k < 20 → loopContinues 20 k = true :=
  loop_exits_first_at 20 (by norm_num)

/-- Claim C3: while no baseline candidate is ready (candidate flag still
false, i.e. fewer than the minimum observations since the last reset),
getBaselineCandidate returns the stored previous candidate and leaves the
state unchanged, so repeated calls all return the same value. -/
theorem C3_candidate_idempotent (s : SensorState)
    (h : s.hasBaselineCandidate = false) :
    getBaselineCandidate s = (s.currentBaselineCandidate, s) := by
  simp [getBaselineCandidate, h]

/-- Witness for C3 on the freshly constructed sensor. -/
theorem C3_candidate_idempotent_witness :
    getBaselineCandidate s1014 = (s1014.currentBaselineCandidate, s1014) :=
  C3_candidate_idempotent s1014 rfl

/-- Claim C4: once the candidate flag is set, one call to
getBaselineCandidate returns the tracked minimum voltage and resets the
observation counter to 0, the flag to false and the tracked minimum to
maxZeroDustVoltage; the following call no longer consumes anything. -/
theorem C4_candidate_consumed (s : SensorState)
    (h : s.hasBaselineCandidate = true) :
    (getBaselineCandidate s).fst = s.minDustVoltage ∧
    (getBaselineCandidate s).snd.readCount = 0 ∧
    (getBaselineCandidate s).snd.hasBaselineCandidate = false ∧
    (getBaselineCandidate s).snd.minDustVoltage = s.maxZeroDustVoltage ∧
    getBaselineCandidate (getBaselineCandidate s).snd =
      ((getBaselineCandidate s).snd.currentBaselineCandidate,
        (getBaselineCandidate s).snd) := by
  simp [getBaselineCandidate, h]

/-- Witness for C4 on a ready state. -/
theorem C4_candidate_consumed_witness :
    (getBaselineCandidate readyState).fst = readyState.minDustVoltage ∧
    (getBaselineCandidate readyState).snd.readCount = 0 ∧
    (getBaselineCandidate readyState).snd.hasBaselineCandidate = false ∧
    (getBaselineCandidate readyState).snd.minDustVoltage =
      readyState.maxZeroDustVoltage ∧
    getBaselineCandidate (getBaselineCandidate readyState).snd =
      ((getBaselineCandidate readyState).snd.currentBaselineCandidate,
        (getBaselineCandidate readyState).snd) :=
  C4_candidate_consumed readyState rfl

/-- Claim C6: whenever the scaled voltage is at most the current baseline
(and the sensitivity is positive), getDustDensity reports a density of 0:
strictly below the baseline by the explicit clamp, and at the baseline because
the difference vanishes. -/
theorem C6_density_floor (s : SensorState) (raws : List Nat)
    (_hs : 0 < s.sensitivity)
    (hle : scaledVoltageOf s raws ≤ s.zeroDustVoltage) :
    (getDustDensity s raws).fst = 0 := by
  rcases lt_or_eq_of_le hle with h | h
  · simp [getDustDensity, h]
  · simp [getDustDensity, h, floatToUInt16]

/-- Witness for C6: a raw mean of 100 scales to 125/256 V, below the 0.6 V
baseline of the GP2Y1014AU0F profile. -/
theorem C6_density_floor_witness : (getDustDensity s1014 [100]).fst = 0 :=
  C6_density_floor s1014 [100]
    (by norm_num [s1014, construct])
    (by norm_num [s1014, construct, scaledVoltageOf])

/-- Claim C8: setBaseline stores any rational value without validation,
getBaseline reads exactly that value back, and the only field changed is
zeroDustVoltage. -/
theorem C8_setBaseline_roundtrip (s : SensorState) (v : ℚ) :
    getBaseline (setBaseline s v) = v ∧
    setBaseline s v = { s with zeroDustVoltage := v } :=
  ⟨rfl, rfl⟩

/-- Claim C9: with the running average disabled from the constructor
(capacity 0), getRunningAverage returns -1 through its uint16_t return type,
i.e. 65535, instead of raising an error; the method reads no other state. -/
theorem C9_disabled_average (s : SensorState)
    (h : s.runningAverageCount = 0) :
    getRunningAverage s = 65535 := by
  simp [getRunningAverage, h]

/-- Witness for C9 on a sensor constructed with capacity 0. -/
theorem C9_disabled_average_witness :
    getRunningAverage (construct .GP2Y1014AU0F 0 5) = 65535 :=
  C9_disabled_average (construct .GP2Y1014AU0F 0 5) rfl

/-- Claim C2 counterexample: with the GP2Y1014AU0F profile (baseline 0.6 V,
vRef 5.0, sensitivity 0.5) and twenty raw samples of 400, the scaled voltage
is 1.953125 V and (1.953125 - 0.6) / 0.5 * 100 = 270.625, which the
assignment to the uint16_t result truncates to 270 — not the 271 predicted by
round-to-nearest. -/
theorem C2_scenario_returns_270 :
    (getDustDensity s1014 (List.replicate 20 400)).fst = 270 := by
  have hsv : scaledVoltageOf s1014 (List.replicate 20 400) = 125 / 64 := by
    norm_num [scaledVoltageOf, s1014, construct, List.sum_replicate]
  simp only [getDustDensity, hsv, floatToUInt16]
  norm_num [s1014, construct]
  rfl

/-- Claim C2 (amended): when the scaled voltage is at or above the current
baseline, getDustDensity returns (scaledVoltage - zeroDustVoltage) /
sensitivity * 100 truncated towards zero (the floor, for these nonnegative
values) through the uint16_t assignment, rather than rounded to nearest. -/
theorem C2_density_truncates (s : SensorState) (raws : List Nat)
    (hge : s.zeroDustVoltage ≤ scaledVoltageOf s raws) :
    (getDustDensity s raws).fst =
      (⌊(scaledVoltageOf s raws - s.zeroDustVoltage) / s.sensitivity * 100⌋).toNat := by
  simp only [getDustDensity, floatToUInt16, not_lt.mpr hge, if_neg, ite_false,
    not_lt_of_ge hge]

/-- Witness for the amended C2 at the spec scenario, where the truncated
value is 270. -/
theorem C2_density_truncates_witness :
    (getDustDensity s1014 (List.replicate 20 400)).fst =
      (⌊(scaledVoltageOf s1014 (List.replicate 20 400) - s1014.zeroDustVoltage) /
          s1014.sensitivity * 100⌋).toNat :=
  C2_density_truncates s1014 (List.replicate 20 400)
    (by norm_num [scaledVoltageOf, s1014, construct, List.sum_replicate])

/-- The voltage-window fields of the state returned by getDustDensity: the
profile bounds are untouched and the tracked minimum is replaced by the scaled
voltage exactly when that voltage is strictly below it and inside the
profile window. -/
theorem getDustDensity_voltage_fields (s : SensorState) (raws : List Nat) :
    (getDustDensity s raws).snd.minZeroDustVoltage = s.minZeroDustVoltage ∧
    (getDustDensity s raws).snd.maxZeroDustVoltage = s.maxZeroDustVoltage ∧
    (getDustDensity s raws).snd.minDustVoltage =
      (if scaledVoltageOf s raws < s.minDustVoltage ∧
          s.minZeroDustVoltage ≤ scaledVoltageOf s raws ∧
          scaledVoltageOf s raws ≤ s.maxZeroDustVoltage
        then scaledVoltageOf s raws else s.minDustVoltage) := by
  simp only [getDustDensity, updateRunningAverage]
  split_ifs <;> simp_all

/-- Claim C5: the invariant minZeroDustVoltage ≤ minDustVoltage ≤
maxZeroDustVoltage holds after construction for both sensor variants and is
preserved by getDustDensity — which changes the tracked minimum only to a
scaled voltage strictly below it lying inside the window — and by
getBaselineCandidate, which only resets it to maxZeroDustVoltage. -/
theorem C5_baseline_invariant :
    (∀ (t : GP2YDustSensorType) (cap : Nat) (vref : ℚ),
      baselineInv (construct t cap vref)) ∧
    (∀ (s : SensorState) (raws : List Nat), baselineInv s →
      baselineInv (getDustDensity s raws).snd ∧
      ((getDustDensity s raws).snd.minDustVoltage = s.minDustVoltage ∨
        ((getDustDensity s raws).snd.minDustVoltage = scaledVoltageOf s raws ∧
          scaledVoltageOf s raws < s.minDustVoltage ∧
          s.minZeroDustVoltage ≤ scaledVoltageOf s raws ∧
          scaledVoltageOf s raws ≤ s.maxZeroDustVoltage))) ∧
    (∀ s : SensorState, baselineInv s →
      baselineInv (getBaselineCandidate s).snd ∧
      ((getBaselineCandidate s).snd.minDustVoltage = s.minDustVoltage ∨
        (getBaselineCandidate s).snd.minDustVoltage = s.maxZeroDustVoltage)) := by
  refine ⟨?_, ?_, ?_⟩
  · intro t cap vref
    cases t <;> constructor <;> norm_num [construct]
  · intro s raws hinv
    obtain ⟨h1, h2, h3⟩ := getDustDensity_voltage_fields s raws
    by_cases hc : scaledVoltageOf s raws < s.minDustVoltage ∧
        s.minZeroDustVoltage ≤ scaledVoltageOf s raws ∧
        scaledVoltageOf s raws ≤ s.maxZeroDustVoltage
    · rw [if_pos hc] at h3
      exact ⟨⟨h1 ▸ h3 ▸ hc.2.1, h2 ▸ h3 ▸ hc.2.2⟩,
        Or.inr ⟨h3, hc.1, hc.2.1, hc.2.2⟩⟩
    · rw [if_neg hc] at h3
      exact ⟨⟨h1 ▸ h3 ▸ hinv.1, h2 ▸ h3 ▸ hinv.2⟩, Or.inl h3⟩
  · intro s hinv
    by_cases h : s.hasBaselineCandidate = false
    · refine ⟨?_, Or.inl ?_⟩ <;> simp [getBaselineCandidate, h, hinv]
    · refine ⟨⟨?_, ?_⟩, Or.inr ?_⟩ <;>
        simp [getBaselineCandidate, h, le_trans hinv.1 hinv.2]

/-- Witness for C5: the invariant holds concretely after one density reading
on the freshly constructed sensor. -/
theorem C5_baseline_invariant_witness :
    baselineInv ((getDustDensity s1014 [400]).snd) :=
  (C5_baseline_invariant.2.1 s1014 [400]
    (C5_baseline_invariant.1 .GP2Y1014AU0F 60 5)).1

/-- Claim C10: updateRunningAverage stores the pushed value reduced modulo
2^16 and reinterpreted as int16_t; 65535 is stored as the sentinel -1, which
getRunningAverage then excludes from both the sum and the divisor (here: a
buffer of capacity 2 holding 10 and a pushed 65535 averages to 10, divisor 1);
values in [32768, 65534] are stored as the negative value v - 65536 and enter
the running sum negatively (here: pushing 10 and 40000 leaves a filtered sum
of 10 - 25536). -/
theorem C10_int16_storage :
    (∀ (s : SensorState) (v : Nat),
      (updateRunningAverage s v).runningAverageBuffer =
        s.runningAverageBuffer.set s.nextRunningAverageCounter (int16OfUInt16 v)) ∧
    int16OfUInt16 65535 = -1 ∧
    (∀ v : Nat, 32768 ≤ v → v ≤ 65534 →
      int16OfUInt16 v = (v : Int) - 65536 ∧ int16OfUInt16 v < 0) ∧
    getRunningAverage (pushAll (construct .GP2Y1014AU0F 2 5) [10, 65535]) = 10 ∧
    ((pushAll (construct .GP2Y1014AU0F 2 5) [10, 40000]).runningAverageBuffer.filter
      (fun x => x != -1)).sum = 10 - 25536 := by
  refine ⟨fun s v => rfl, by decide, ?_, ?_, ?_⟩
  · intro v h1 h2
    have hm : v % 65536 = v := Nat.mod_eq_of_lt (by omega)
    constructor
    · simp only [int16OfUInt16, hm, if_neg (by omega : ¬ v % 65536 % 65536 < 32768)]
      omega
    · simp only [int16OfUInt16, hm, if_neg (by omega : ¬ v % 65536 % 65536 < 32768)]
      omega
  · have hbuf : (pushAll (construct .GP2Y1014AU0F 2 5) [10, 65535]).runningAverageBuffer
        = [10, -1] := by decide
    have hcap : (pushAll (construct .GP2Y1014AU0F 2 5) [10, 65535]).runningAverageCount
        = 2 := by decide
    have hf : ([10, -1] : List Int).filter (fun x => x != -1) = [10] := by decide
    simp only [getRunningAverage, hbuf, hcap, hf]
    norm_num [round_eq]
    rfl
  · decide

/-- Witness for C10 at the concrete pushed value 40000. -/
theorem C10_int16_storage_witness :
    int16OfUInt16 40000 = (40000 : Int) - 65536 ∧ int16OfUInt16 40000 < 0 :=
  C10_int16_storage.2.2.1 40000 (by norm_num) (by norm_num)

/-- Values representable in int16 are stored unchanged. -/
theorem int16OfUInt16_of_le (v : Nat) (h : v ≤ 32767) :
    int16OfUInt16 v = (v : Int) := by
  simp only [int16OfUInt16, Nat.mod_eq_of_lt (by omega : v < 65536)]
  rw [if_pos (by omega)]

/-- The running-average fields of a freshly constructed sensor. -/
theorem construct_ra_fields (t : GP2YDustSensorType) (cap : Nat) (vref : ℚ) :
    (construct t cap vref).runningAverageBuffer = List.replicate cap (-1) ∧
    (construct t cap vref).runningAverageCount = cap ∧
    (construct t cap vref).nextRunningAverageCounter = 0 := by
  cases t <;> exact ⟨rfl, rfl, rfl⟩

/-- Effect of pushing a list of values that fits between the current write
index and the end of the buffer: the corresponding segment of the buffer is
overwritten in order and the write index advances, wrapping to 0 exactly when
the last slot has just been written. -/
theorem pushAll_fill (vs : List Nat) : ∀ s : SensorState,
    s.runningAverageBuffer.length = s.runningAverageCount →
    s.nextRunningAverageCounter + vs.length ≤ s.runningAverageCount →
    (pushAll s vs).runningAverageBuffer =
      s.runningAverageBuffer.take s.nextRunningAverageCounter
        ++ vs.map int16OfUInt16
        ++ s.runningAverageBuffer.drop (s.nextRunningAverageCounter + vs.length) ∧
    (pushAll s vs).nextRunningAverageCounter =
      (if s.runningAverageCount ≤ s.nextRunningAverageCounter + vs.length ∧ vs ≠ []
        then 0 else s.nextRunningAverageCounter + vs.length) ∧
    (pushAll s vs).runningAverageCount = s.runningAverageCount := by
  induction vs with
  | nil =>
    intro s hb hle
    refine ⟨?_, ?_, rfl⟩
    · simp [pushAll, List.take_append_drop]
    · simp [pushAll]
  | cons v tl ih =>
    intro s hb hle
    simp only [List.length_cons] at hle
    have hi : s.nextRunningAverageCounter < s.runningAverageBuffer.length := by
      rw [hb]; omega
    have hstep : pushAll s (v :: tl) = pushAll (updateRunningAverage s v) tl := rfl
    rcases le_or_lt s.runningAverageCount (s.nextRunningAverageCounter + 1) with
      hwrap | hwrap
    · have htl : tl = [] := List.length_eq_zero.mp (by omega)
      subst htl
      refine ⟨?_, ?_, rfl⟩
      · show s.runningAverageBuffer.set _ _ = _
        rw [List.set_eq_take_cons_drop _ hi]
        simp
      · show (if s.runningAverageCount ≤ s.nextRunningAverageCounter + 1 then 0 else _) = _
        simp [hwrap]
    · have hnext' : (updateRunningAverage s v).nextRunningAverageCounter =
          s.nextRunningAverageCounter + 1 := by
        simp [updateRunningAverage, Nat.not_le.mpr hwrap]
      have hbuf' : (updateRunningAverage s v).runningAverageBuffer =
          s.runningAverageBuffer.set s.nextRunningAverageCounter (int16OfUInt16 v) := rfl
      have hcap' : (updateRunningAverage s v).runningAverageCount =
          s.runningAverageCount := rfl
      obtain ⟨ihbuf, ihnext, ihcap⟩ := ih (updateRunningAverage s v)
        (by rw [hbuf', hcap', List.length_set, hb])
        (by rw [hnext', hcap']; omega)
      simp only [hnext', hbuf', hcap'] at ihbuf ihnext ihcap
      rw [List.set_eq_take_cons_drop _ hi] at ihbuf
      have hTlen : (s.runningAverageBuffer.take s.nextRunningAverageCounter).length =
          s.nextRunningAverageCounter := by
        rw [List.length_take]
        exact min_eq_left (le_of_lt hi)
      have e1 : List.take (s.nextRunningAverageCounter + 1)
          (s.runningAverageBuffer.take s.nextRunningAverageCounter
            ++ int16OfUInt16 v ::
              s.runningAverageBuffer.drop (s.nextRunningAverageCounter + 1)) =
          s.runningAverageBuffer.take s.nextRunningAverageCounter
            ++ [int16OfUInt16 v] := by
        rw [List.take_append_eq_append_take, hTlen, Nat.add_sub_cancel_left,
          List.take_of_length_le (by rw [hTlen]; omega)]
        simp
      have e2 : List.drop (s.nextRunningAverageCounter + 1 + tl.length)
          (s.runningAverageBuffer.take s.nextRunningAverageCounter
            ++ int16OfUInt16 v ::
              s.runningAverageBuffer.drop (s.nextRunningAverageCounter + 1)) =
          s.runningAverageBuffer.drop
            (s.nextRunningAverageCounter + (tl.length + 1)) := by
        rw [List.drop_append_eq_append_drop, hTlen,
          List.drop_eq_nil_of_le (by rw [hTlen]; omega),
          show s.nextRunningAverageCounter + 1 + tl.length -
              s.nextRunningAverageCounter = tl.length + 1 from by omega,
          List.nil_append, List.drop_succ_cons, List.drop_drop]
        congr 1
        omega
      refine ⟨?_, ?_, ?_⟩
      · rw [hstep, ihbuf, e1, e2]
        simp [List.append_assoc]
      · rw [hstep, ihnext,
          show s.nextRunningAverageCounter + 1 + tl.length =
            s.nextRunningAverageCounter + (tl.length + 1) from by omega]
        by_cases htl : tl = []
        · subst htl
          simp [Nat.not_le.mpr hwrap]
        · simp [htl]
      · rw [hstep, ihcap]

/-- Claim C7 (amended): with capacity c ≥ 1 and every pushed value at most
32767 — so that its int16 storage is the value itself rather than the -1
sentinel or a negative — pushing c+1 values into a fresh window makes
getRunningAverage report the rounded mean of the most recent c values only:
the first pushed value has been overwritten and no longer contributes. -/
theorem C7_ring_overwrite (c : Nat) (hc : 1 ≤ c) (vs : List Nat)
    (hlen : vs.length = c + 1) (hvals : ∀ v ∈ vs, v ≤ 32767)
    (t : GP2YDustSensorType) (vref : ℚ) :
    getRunningAverage (pushAll (construct t c vref) vs) =
      (round ((((vs.drop 1).map (fun v : Nat => (v : ℚ))).sum) / (c : ℚ))).toNat := by
  obtain ⟨hbuf0, hcap0, hnext0⟩ := construct_ra_fields t c vref
  have hne : vs ≠ [] := by
    intro h
    rw [h] at hlen
    simp at hlen
  have hws : vs.dropLast.length = c := by
    rw [List.length_dropLast, hlen]
    omega
  have hwsne : vs.dropLast ≠ [] := by
    intro h
    rw [h] at hws
    simp at hws
    omega
  obtain ⟨w0, ws', hcons⟩ := List.exists_cons_of_ne_nil hwsne
  have hsplit : vs.dropLast ++ [vs.getLast hne] = vs := List.dropLast_append_getLast hne
  obtain ⟨Abuf, Anext, Acap⟩ := pushAll_fill vs.dropLast (construct t c vref)
    (by rw [hbuf0, hcap0, List.length_replicate])
    (by rw [hnext0, hcap0, hws]; omega)
  have Abuf' : (pushAll (construct t c vref) vs.dropLast).runningAverageBuffer =
      vs.dropLast.map int16OfUInt16 := by
    rw [Abuf, hbuf0, hnext0, hws]
    simp [List.drop_eq_nil_of_le]
  have Anext' : (pushAll (construct t c vref) vs.dropLast).nextRunningAverageCounter
      = 0 := by
    rw [Anext, hnext0, hws, hcap0, if_pos ⟨by omega, hwsne⟩]
  have Acap' : (pushAll (construct t c vref) vs.dropLast).runningAverageCount = c := by
    rw [Acap, hcap0]
  have hstep : pushAll (construct t c vref) vs =
      updateRunningAverage (pushAll (construct t c vref) vs.dropLast)
        (vs.getLast hne) := by
    conv_lhs => rw [← hsplit]
    rw [pushAll, List.foldl_append]
    rfl
  have Bbuf : (pushAll (construct t c vref) vs).runningAverageBuffer =
      int16OfUInt16 (vs.getLast hne) :: ws'.map int16OfUInt16 := by
    rw [hstep]
    show (pushAll (construct t c vref) vs.dropLast).runningAverageBuffer.set
      (pushAll (construct t c vref) vs.dropLast).nextRunningAverageCounter
      (int16OfUInt16 (vs.getLast hne)) = _
    rw [Abuf', Anext', hcons, List.map_cons, List.set_cons_zero]
  have Bcap : (pushAll (construct t c vref) vs).runningAverageCount = c := by
    rw [hstep]
    show (pushAll (construct t c vref) vs.dropLast).runningAverageCount = c
    exact Acap'
  have hw_le : vs.getLast hne ≤ 32767 := hvals _ (List.getLast_mem hne)
  have hws'_le : ∀ v ∈ ws', v ≤ 32767 := by
    intro v hv
    refine hvals v (List.dropLast_subset vs ?_)
    rw [hcons]
    exact List.mem_cons_of_mem _ hv
  have hmap : ws'.map int16OfUInt16 = ws'.map (fun v : Nat => (v : Int)) :=
    List.map_congr_left (fun v hv => int16OfUInt16_of_le v (hws'_le v hv))
  have hws'len : ws'.length + 1 = c := by
    rw [hcons] at hws
    simpa using hws
  have hfilter : (int16OfUInt16 (vs.getLast hne) :: ws'.map int16OfUInt16).filter
      (fun x => x != -1) =
      int16OfUInt16 (vs.getLast hne) :: ws'.map int16OfUInt16 := by
    rw [List.filter_eq_self]
    intro a ha
    rw [bne_iff_ne]
    rcases List.mem_cons.mp ha with h | h
    · rw [h, int16OfUInt16_of_le _ hw_le]
      intro hEq
      omega
    · rw [hmap] at h
      obtain ⟨v, hv, hva⟩ := List.mem_map.mp h
      rw [← hva]
      show (v : Int) ≠ -1
      intro hEq
      omega
  have hdrop : vs.drop 1 = ws' ++ [vs.getLast hne] := by
    conv_lhs => rw [← hsplit, hcons]
    rfl
  simp only [getRunningAverage, Bcap, Bbuf, hfilter]
  rw [if_neg (by omega : ¬ c = 0),
    if_neg (by simp : ¬ (int16OfUInt16 (vs.getLast hne) ::
      ws'.map int16OfUInt16).length = 0)]
  rw [hdrop, List.map_append, List.sum_append, List.sum_cons,
    int16OfUInt16_of_le _ hw_le, hmap]
  rw [List.length_cons, List.length_map, hws'len]
  congr 2
  push_cast [← Nat.cast_list_sum, List.sum_cons, List.sum_nil]
  ring

/-- Claim C7 counterexample (as originally stated, for arbitrary pushed
values): with capacity 1, pushing the two values 5 and 65535 leaves only the
-1 sentinel in the buffer — 65535 is stored as -1 — so getRunningAverage
reports the cold-start 0, while the rounded mean of the most recent 1 value
is 65535. -/
theorem C7_counterexample :
    getRunningAverage (pushAll (construct .GP2Y1014AU0F 1 5) [5, 65535]) = 0 ∧
    (round (((([5, 65535].drop 1).map (fun v : Nat => (v : ℚ))).sum) / (1 : ℚ))).toNat
      = 65535 := by
  constructor
  · have hbuf : (pushAll (construct .GP2Y1014AU0F 1 5) [5, 65535]).runningAverageBuffer
        = [-1] := by decide
    have hcap : (pushAll (construct .GP2Y1014AU0F 1 5) [5, 65535]).runningAverageCount
        = 1 := by decide
    have hf : ([-1] : List Int).filter (fun x => x != -1) = [] := by decide
    simp [getRunningAverage, hbuf, hcap, hf]
  · norm_num [round_eq]
    rfl

/-- Witness for the amended C7: capacity 2 and pushed values 1, 2, 3 give a
reported average of round((2 + 3) / 2). -/
theorem C7_ring_overwrite_witness :
    getRunningAverage (pushAll (construct .GP2Y1014AU0F 2 5) [1, 2, 3]) =
      (round (((([1, 2, 3].drop 1).map (fun v : Nat => (v : ℚ))).sum) / ((2 : Nat) : ℚ))).toNat :=
  C7_ring_overwrite 2 (by norm_num) [1, 2, 3] (by norm_num) (by decide)
    .GP2Y1014AU0F 5
end GP2Y
